import Mathlib

/-!
Verification of the order/consignment synchronization core of the ypl
repository (Shopify ↔ Shipsy integration).  The embedded code comes from
`src/services/webhook-service.js` (the concatenated sync service),
`src/services/shipsy-service.js`, `src/config/settings.js` and
`src/unnamed/part_005` (the Shopify client).  Notes and ids are modelled
as lists of characters; JavaScript `null`/`undefined` string fields are
modelled as `Option`; external calls are modelled by explicit behaviour
parameters plus an effect trace.
-/

namespace Ypl

/-- A JavaScript string, modelled as a list of characters. -/
abbrev Str := List Char

/-- The character class of the regex token `\d` (JavaScript): a decimal digit. -/
def isDigitCh (c : Char) : Bool := c.isDigit

/-- The ASCII fragment of the regex token `\s` (JavaScript whitespace):
space, tab, line feed, carriage return, vertical tab, form feed. -/
def isSpaceCh (c : Char) : Bool :=
  (c == ' ') || (c == '\t') || (c == '\n') || (c == '\r') ||
    (c == '\x0b') || (c == '\x0c')

/-- Model of JavaScript `String.prototype.startsWith` on character lists:
`strStartsWith pat l` holds when `pat` is an initial segment of `l`. -/
def strStartsWith : Str → Str → Bool
  | [], _ => true
  | _ :: _, [] => false
  | p :: ps, c :: cs => p == c && strStartsWith ps cs

/-- Model of JavaScript `String.prototype.includes`: `strContains pat l`
holds when `pat` occurs as a contiguous substring of `l`. -/
def strContains (pat : Str) : Str → Bool
  | [] => pat.isEmpty
  | c :: cs => strStartsWith pat (c :: cs) || strContains pat cs

/-- The literal marker `SHIPSY_ID:` used by the sync service as the note
token prefix (`src/services/webhook-service.js`, sync service part). -/
def shipsyMarker : Str := "SHIPSY_ID:".data

/-- One attempt of the regex `/SHIPSY_ID:\s*(\d+)/` anchored at the start of
`l`: the literal marker, then greedy whitespace, then at least one digit.
Returns the captured digit run, or `none` when the attempt fails here.
Since `\s` and `\d` are disjoint character classes the greedy `\s*` is
exactly `dropWhile` and `(\d+)` is exactly a nonempty `takeWhile`. -/
def tryMatch (l : Str) : Option Str :=
  if strStartsWith shipsyMarker l then
    let ds := ((l.drop shipsyMarker.length).dropWhile isSpaceCh).takeWhile isDigitCh
    if ds.isEmpty then none else some ds
  else none

/-- The regex search `note.match(/SHIPSY_ID:\s*(\d+)/)`: the engine tries
the pattern at every position left to right and returns the first position
where the whole pattern (marker, optional whitespace, one or more digits)
matches; a marker occurrence with no following digits is skipped over. -/
def extractAux : Str → Option Str
  | [] => none
  | c :: cs =>
    match tryMatch (c :: cs) with
    | some ds => some ds
    | none => extractAux cs

/-- `SyncService.extractConsignmentId(note)` from
`src/services/webhook-service.js`: `null`/`undefined`/empty notes give
`null` (the `if (!note)` guard; the empty string is falsy), otherwise the
result of the regex search. -/
def extractConsignmentId : Option Str → Option Str
  | none => none
  | some l => extractAux l

/-- The note string built by `SyncService.syncOrder` on success:
`` `SHIPSY_ID: ${consignmentId}\nCreated: ${new Date().toISOString()}` ``,
with the timestamp abstracted as the parameter `now`. -/
def encodeNote (cid now : Str) : Str :=
  "SHIPSY_ID: ".data ++ cid ++ ("\nCreated: ".data ++ now)

/-- The fields of a Shopify order record that the sync service reads.
String-valued fields that may be `null`/`undefined` are `Option Str`. -/
structure Order where
  id : Str
  note : Option Str
  financial_status : Option Str
  fulfillment_status : Option Str
  deriving DecidableEq

/-- One externally visible call made by the sync service: a carrier call,
a write to the order source, or an append to the sync log
(`SyncLog.logSync` in `src/models/sync-log.js`). -/
inductive Effect where
  | createConsignment (orderId : Str)
  | updateOrderNote (orderId : Str) (note : Str)
  | addOrderTag (orderId : Str) (tag : Str)
  | updateOrderStatus (orderId : Str) (status : Str)
  | sendOrderMessage (orderId : Str) (message : Str)
  | getConsignmentStatus (consignmentId : Str)
  | syncLogAppend (orderId : Str)
  deriving DecidableEq

/-- Behaviour of `shipsyService.createConsignment(order)` as seen by its
caller `syncOrder`: it either throws or returns a success result carrying
a consignment id (see `createConsignment` below for the response check). -/
inductive CarrierResult where
  | throws
  | created (cid : Str)
  deriving DecidableEq

/-- The value returned by `SyncService.syncOrder`:
`{success:false, reason:"already_synced"}` or
`{success:true, orderId, consignmentId}`. -/
inductive SyncResult where
  | alreadySynced
  | synced (cid : Str)
  deriving DecidableEq

/-- The idempotency guard condition of `syncOrder`:
`order.note && order.note.includes("SHIPSY_ID:")`.  A missing note is
falsy; the empty note is falsy and also contains no marker. -/
def noteHasMarker : Option Str → Bool
  | none => false
  | some s => strContains shipsyMarker s

/-- The tag added by `syncOrder` after a successful sync. -/
def shipsySyncedTag : Str := "shipsy-synced".data

/-- `SyncService.syncOrder(order)` from `src/services/webhook-service.js`,
with the carrier call abstracted by `carrier` and the clock by `now`.
Branches: (1) the note already includes the marker → return already_synced
with no external calls; (2) the carrier call throws → the error propagates
(the catch block rethrows) after the carrier call was made; (3) the
carrier returns an id → write the fresh note string and add the tag (the
order-source writes are modelled as succeeding).  The trace lists the
external calls in order; no branch calls `SyncLog.logSync`. -/
def syncOrder (carrier : Order → CarrierResult) (now : Str) (o : Order) :
    Except Unit SyncResult × List Effect :=
  if noteHasMarker o.note then
    (Except.ok SyncResult.alreadySynced, [])
  else
    match carrier o with
    | CarrierResult.throws => (Except.error (), [Effect.createConsignment o.id])
    | CarrierResult.created cid =>
      (Except.ok (SyncResult.synced cid),
        [Effect.createConsignment o.id,
         Effect.updateOrderNote o.id (encodeNote cid now),
         Effect.addOrderTag o.id shipsySyncedTag])

/-- The skip condition of `syncPendingOrders`:
`order.financial_status === "refunded" || order.fulfillment_status === "cancelled"`. -/
def skipOrder (o : Order) : Bool :=
  (o.financial_status == some "refunded".data) ||
    (o.fulfillment_status == some "cancelled".data)

/-- Whether a `syncOrder` return value has `result.success` truthy. -/
def isSuccessResult : SyncResult → Bool
  | SyncResult.alreadySynced => false
  | SyncResult.synced _ => true

/-- The `for (const order of orders)` loop of `syncPendingOrders` with its
two accumulators: skip refunded/cancelled orders, count a success when
`result.success`, catch a thrown error and count it as failed, continue. -/
def syncPendingGo (carrier : Order → CarrierResult) (now : Str) :
    List Order → Nat → Nat → Nat × Nat
  | [], s, f => (s, f)
  | o :: rest, s, f =>
    if skipOrder o then
      syncPendingGo carrier now rest s f
    else
      match (syncOrder carrier now o).1 with
      | Except.error _ => syncPendingGo carrier now rest s (f + 1)
      | Except.ok r =>
        syncPendingGo carrier now rest (if isSuccessResult r then s + 1 else s) f

/-- `SyncService.syncPendingOrders` with the fetched page abstracted as
`orders`: returns `{synced, failed, total}` where `total` is the length of
the fetched list. -/
def syncPendingOrders (carrier : Order → CarrierResult) (now : Str)
    (orders : List Order) : Nat × Nat × Nat :=
  let sf := syncPendingGo carrier now orders 0 0
  (sf.1, sf.2, orders.length)

/-- One entry of the status mapping table:
`{name, shopifyStatus, notify}` (`src/config/settings.js`). -/
structure StatusMapping where
  name : Str
  shopifyStatus : Str
  notify : Bool
  deriving DecidableEq

/-- The `shipmentStatuses` object of `src/config/settings.js`, as an
association list keyed by the carrier status string.  These are its seven
keys; JavaScript object property lookup is modelled by `find?` below. -/
def shipmentStatuses : List (Str × StatusMapping) :=
  [("pickup_scheduled".data, ⟨"جدول الاستلام".data, "pending".data, true⟩),
   ("out_for_pickup".data, ⟨"جاري الاستلام".data, "processing".data, true⟩),
   ("reached_at_hub".data, ⟨"وصل المركز".data, "processing".data, false⟩),
   ("outfordelivery".data, ⟨"جاري التوصيل".data, "processing".data, true⟩),
   ("attempted".data, ⟨"محاولة توصيل".data, "processing".data, true⟩),
   ("delivered".data, ⟨"تم التسليم".data, "completed".data, true⟩),
   ("cancelled".data, ⟨"ملغى".data, "cancelled".data, true⟩)]

/-- The property access `settings.shipmentStatuses[status]`: `undefined`
(here `none`) when the key is not one of the table's entries. -/
def lookupShipmentStatus (s : Str) : Option StatusMapping :=
  (shipmentStatuses.find? (fun p => p.1 == s)).map (fun p => p.2)

/-- The carrier status payload returned by `getConsignmentStatus`, of which
the sync service reads only `current_status` (possibly absent). -/
structure ShipmentStatus where
  current_status : Option Str
  deriving DecidableEq

/-- `SyncService.updateOrderFromShipmentStatus(orderId, shipmentStatus)`:
look the status up in the mapping table; with no entry, log the
unknown-status warning and return without any write (the Bool records that
this warning branch was taken); with an entry, update the order status
and, when the entry's notify flag is set, send the customer message
`` `تحديث الشحنة: ${statusMapping.name}` ``.  The order-source writes are
modelled as succeeding. -/
def updateOrderFromShipmentStatus (orderId : Str)
    (shipmentStatus : ShipmentStatus) : Bool × List Effect :=
  match shipmentStatus.current_status with
  | none => (true, [])
  | some s =>
    match lookupShipmentStatus s with
    | none => (true, [])
    | some m =>
      (false,
        Effect.updateOrderStatus orderId m.shopifyStatus ::
          (if m.notify
            then [Effect.sendOrderMessage orderId ("تحديث الشحنة: ".data ++ m.name)]
            else []))

/-- Behaviour of `shipsyService.getConsignmentStatus(consignmentId)` as
seen by `updateConsignmentStatuses`: it throws, or returns a payload
(possibly with no usable status object). -/
inductive StatusFetch where
  | threw
  | got (st : Option ShipmentStatus)

/-- One iteration of the `for (const order of orders)` loop of
`SyncService.updateConsignmentStatuses`, returning its contribution
`(updated, failed, effects)`: no note token → skip with no call; the
status fetch throws → caught, counted as failed; a fetched status that is
not truthy (`status && status.current_status`, the empty string being
falsy) → no update and no count; a truthy status → call
`updateOrderFromShipmentStatus` and count the order as updated whether or
not the status was mapped. -/
def stepOrder (oracle : Str → StatusFetch) (o : Order) :
    Nat × Nat × List Effect :=
  match extractConsignmentId o.note with
  | none => (0, 0, [])
  | some cid =>
    match oracle cid with
    | StatusFetch.threw => (0, 1, [Effect.getConsignmentStatus cid])
    | StatusFetch.got none => (0, 0, [Effect.getConsignmentStatus cid])
    | StatusFetch.got (some st) =>
      match st.current_status with
      | none => (0, 0, [Effect.getConsignmentStatus cid])
      | some s =>
        if s.isEmpty then (0, 0, [Effect.getConsignmentStatus cid])
        else
          (1, 0,
            Effect.getConsignmentStatus cid ::
              (updateOrderFromShipmentStatus o.id st).2)

/-- `SyncService.updateConsignmentStatuses` over the fetched page
`orders`, with the carrier status endpoint abstracted by `oracle`:
accumulates the per-order counts and the effect trace and returns
`(updated, failed, effects)`. -/
def updateConsignmentStatuses (oracle : Str → StatusFetch) :
    List Order → Nat × Nat × List Effect
  | [] => (0, 0, [])
  | o :: rest =>
    let r := stepOrder oracle o
    let acc := updateConsignmentStatuses oracle rest
    (r.1 + acc.1, r.2.1 + acc.2.1, r.2.2 ++ acc.2.2)

/-- The body of the carrier's consignment-creation HTTP response
(`response.data` in `src/services/shipsy-service.js`). -/
structure ShipsyData where
  consignment_id : Option Str
  deriving DecidableEq

/-- A nominally successful (non-throwing) HTTP response from the carrier;
`data` may still be absent or lack the id field. -/
structure ShipsyResponse where
  data : Option ShipsyData
  deriving DecidableEq

/-- The response handling of `ShipsyService.createConsignment`
(`src/services/shipsy-service.js`): `if (response.data &&
response.data.consignment_id)` return the success result carrying the id,
otherwise `throw new Error("No consignment ID in response")` (the catch
block rethrows).  JavaScript truthiness makes the empty-string id falsy.
The transport call itself is abstracted: this maps the carrier's
non-throwing response to the function's outcome. -/
def createConsignment (resp : ShipsyResponse) : Except Unit Str :=
  match resp.data with
  | none => Except.error ()
  | some d =>
    match d.consignment_id with
    | none => Except.error ()
    | some cid => if cid.isEmpty then Except.error () else Except.ok cid

/-- Whether a carrier response lacks a (truthy) consignment identifier. -/
def respLacksId (resp : ShipsyResponse) : Bool :=
  match resp.data with
  | none => true
  | some d =>
    match d.consignment_id with
    | none => true
    | some cid => cid.isEmpty

/-- Modelled from the spec: the fixed enumeration of carrier status values
given in the spec's Consignment data model (`pickup_scheduled,
out_for_pickup, reached_at_hub, in_transit/outfordelivery, attempted,
delivered, cancelled, pending`), with the compound item contributing both
spellings.  Used to compare the spec's claimed status vocabulary against
the source's mapping table. -/
def specStatusEnumeration : List Str :=
  ["pickup_scheduled".data, "out_for_pickup".data, "reached_at_hub".data,
   "in_transit".data, "outfordelivery".data, "attempted".data,
   "delivered".data, "cancelled".data, "pending".data]

/-- Modelled from the spec: extraction as the claim words it — the maximal
digit run immediately following (after optional whitespace) the FIRST
occurrence of `SHIPSY_ID:` in the note, `none` when that run is empty.
Stated for comparison with `extractAux`, which implements the actual
regex search (the regex keeps searching past a digitless occurrence). -/
def firstOccDigits : Str → Option Str
  | [] => none
  | c :: cs =>
    if strStartsWith shipsyMarker (c :: cs) then
      let ds := (((c :: cs).drop shipsyMarker.length).dropWhile
        isSpaceCh).takeWhile isDigitCh
      if ds.isEmpty then none else some ds
    else firstOccDigits cs

/-- Whether an effect is an append to the sync log. -/
def isSyncLogAppend : Effect → Bool
  | Effect.syncLogAppend _ => true
  | _ => false

/-- The number of sync-log entries an effect trace appends. -/
def countLogAppends (effs : List Effect) : Nat :=
  effs.countP isSyncLogAppend

/-- Whether `syncOrder` succeeded (the `result.success` truthy check of
the calling loop) for a given order under a given carrier behaviour. -/
def syncSucceededB (carrier : Order → CarrierResult) (now : Str)
    (o : Order) : Bool :=
  match (syncOrder carrier now o).1 with
  | Except.ok (SyncResult.synced _) => true
  | _ => false

/-- Whether `syncOrder` threw for a given order under a given carrier
behaviour (the caught per-item failure of the calling loop). -/
def syncThrewB (carrier : Order → CarrierResult) (now : Str)
    (o : Order) : Bool :=
  match (syncOrder carrier now o).1 with
  | Except.error _ => true
  | _ => false

/-- Whether the reconciliation loop reaches the status-update call for an
order: the note yields a token and the fetched status is truthy
(`status && status.current_status`); the mapping table is NOT consulted
by this condition. -/
def statusFetchTruthy (oracle : Str → StatusFetch) (o : Order) : Bool :=
  match extractConsignmentId o.note with
  | none => false
  | some cid =>
    match oracle cid with
    | StatusFetch.got (some st) =>
      match st.current_status with
      | some s => !s.isEmpty
      | none => false
    | _ => false

/-- Whether the status fetch for an order's token threw. -/
def statusFetchThrew (oracle : Str → StatusFetch) (o : Order) : Bool :=
  match extractConsignmentId o.note with
  | none => false
  | some cid =>
    match oracle cid with
    | StatusFetch.threw => true
    | _ => false

/-! Helper lemmas about the string primitives. -/

/-- A list starts with itself followed by anything. -/
theorem strStartsWith_append (pat x : Str) :
    strStartsWith pat (pat ++ x) = true := by
  induction pat with
  | nil => rfl
  | cons p ps ih => simp [strStartsWith, ih]

/-- Dropping the length of the left part of an append yields the right part. -/
theorem drop_length_append (a b : Str) : (a ++ b).drop a.length = b := by
  induction a with
  | nil => rfl
  | cons c cs ih => simp [ih]

/-- A successful start-with test decomposes the list. -/
theorem startsWith_decomp : ∀ pat l : Str, strStartsWith pat l = true →
    ∃ r, l = pat ++ r := by
  intro pat
  induction pat with
  | nil => exact fun l _ => ⟨l, rfl⟩
  | cons p ps ih =>
    intro l h
    cases l with
    | nil => simp [strStartsWith] at h
    | cons c cs =>
      simp only [strStartsWith, Bool.and_eq_true, beq_iff_eq] at h
      obtain ⟨r, hr⟩ := ih cs h.2
      exact ⟨r, by simp [h.1, hr]⟩

/-- `takeWhile` passes over a block that satisfies the predicate. -/
theorem takeWhile_append_all (p : Char → Bool) :
    ∀ l r : Str, l.all p = true → (l ++ r).takeWhile p = l ++ r.takeWhile p := by
  intro l r h
  induction l with
  | nil => rfl
  | cons c cs ih =>
    simp only [List.all_cons, Bool.and_eq_true] at h
    simp [List.takeWhile_cons, h.1, ih h.2]

/-- `takeWhile` and `dropWhile` split a list. -/
theorem tw_dw (p : Char → Bool) (l : Str) :
    l.takeWhile p ++ l.dropWhile p = l := by
  induction l with
  | nil => rfl
  | cons c cs ih =>
    by_cases h : p c = true
    · simp [List.takeWhile_cons, List.dropWhile_cons, h, ih]
    · simp only [Bool.not_eq_true] at h
      simp [List.takeWhile_cons, List.dropWhile_cons, h]

/-- Every element of a `takeWhile` satisfies the predicate. -/
theorem all_takeWhile (p : Char → Bool) (l : Str) :
    (l.takeWhile p).all p = true := by
  induction l with
  | nil => rfl
  | cons c cs ih =>
    by_cases h : p c = true
    · simp [List.takeWhile_cons, h, ih]
    · simp only [Bool.not_eq_true] at h
      simp [List.takeWhile_cons, h]

/-- `takeWhile` after `dropWhile` with the same predicate is empty. -/
theorem takeWhile_dropWhile_nil (p : Char → Bool) (l : Str) :
    (l.dropWhile p).takeWhile p = [] := by
  induction l with
  | nil => rfl
  | cons c cs ih =>
    by_cases h : p c = true
    · simpa [List.dropWhile_cons, h] using ih
    · simp only [Bool.not_eq_true] at h
      simp [List.dropWhile_cons, h, List.takeWhile_cons]

/-- A decimal digit is not regex whitespace. -/
theorem digit_not_space (c : Char) (h : isDigitCh c = true) :
    isSpaceCh c = false := by
  have hd : ('0' ≤ c ∧ c ≤ '9') := by
    simpa [isDigitCh, Char.isDigit, decide_eq_true_eq] using h
  simp only [isSpaceCh, Bool.or_eq_false_iff, beq_eq_false_iff_ne, ne_eq]
  refine ⟨⟨⟨⟨⟨?_, ?_⟩, ?_⟩, ?_⟩, ?_⟩, ?_⟩ <;>
    · rintro rfl
      revert hd
      decide

/-- Extending a list beyond a final newline cannot create a start-with
match for a pattern free of newlines. -/
theorem startsWith_extend (pat : Str) (hn : ∀ c ∈ pat, c ≠ '\n') :
    ∀ x rest : Str, strStartsWith pat (x ++ '\n' :: rest) = true →
      strStartsWith pat (x ++ ['\n']) = true := by
  induction pat with
  | nil => intro x rest _; rfl
  | cons p ps ih =>
    intro x rest h
    cases x with
    | nil =>
      simp only [List.nil_append, strStartsWith, Bool.and_eq_true,
        beq_iff_eq] at h
      exact absurd h.1 (hn p (by simp))
    | cons b x' =>
      simp only [List.cons_append, strStartsWith, Bool.and_eq_true] at h ⊢
      exact ⟨h.1, ih (fun c hc => hn c (by simp [hc])) x' rest h.2⟩

/-- A failed start-with test makes the regex attempt fail. -/
theorem tryMatch_none_of_no_marker {l : Str}
    (h : strStartsWith shipsyMarker l = false) : tryMatch l = none := by
  simp [tryMatch, h]

/-- The regex attempt at a marker occurrence captures the digit run after
the whitespace run. -/
theorem tryMatch_marker (r : Str) :
    tryMatch (shipsyMarker ++ r) =
      (if ((r.dropWhile isSpaceCh).takeWhile isDigitCh).isEmpty then none
        else some ((r.dropWhile isSpaceCh).takeWhile isDigitCh)) := by
  simp [tryMatch, strStartsWith_append, drop_length_append]

/-- Unfolding equation of the regex search at a cons. -/
theorem extractAux_cons (c : Char) (cs : Str) :
    extractAux (c :: cs) =
      (match tryMatch (c :: cs) with
        | some ds => some ds
        | none => extractAux cs) := rfl

/-- No character of the marker is a newline. -/
theorem marker_no_newline : ∀ c ∈ shipsyMarker, c ≠ '\n' := by decide

/-- The regex search skips a region that, up to a following newline,
contains no marker occurrence. -/
theorem extractAux_skip : ∀ t rest : Str,
    strContains shipsyMarker (t ++ ['\n']) = false →
      extractAux (t ++ '\n' :: rest) = extractAux ('\n' :: rest) := by
  intro t
  induction t with
  | nil => intro rest _; rfl
  | cons c t' ih =>
    intro rest h
    simp only [List.cons_append, strContains, Bool.or_eq_false_iff,
      List.append_eq] at h
    obtain ⟨ha, hb⟩ := h
    have hsw : strStartsWith shipsyMarker (c :: (t' ++ '\n' :: rest)) = false := by
      cases hval : strStartsWith shipsyMarker (c :: (t' ++ '\n' :: rest)) with
      | false => rfl
      | true =>
        have hext := startsWith_extend shipsyMarker marker_no_newline (c :: t')
          rest (by simpa using hval)
        simp only [List.cons_append] at hext
        rw [hext] at ha
        exact ha
    rw [List.cons_append, extractAux_cons, tryMatch_none_of_no_marker hsw]
    exact ih rest hb

/-- The regex search fails on a note with no marker occurrence at all. -/
theorem extractAux_none_of_not_contains : ∀ l : Str,
    strContains shipsyMarker l = false → extractAux l = none := by
  intro l
  induction l with
  | nil => intro _; rfl
  | cons c cs ih =>
    intro h
    simp only [strContains, Bool.or_eq_false_iff] at h
    rw [extractAux_cons, tryMatch_none_of_no_marker h.1]
    exact ih h.2

/-- The regex search at a marker followed by a space and a digit run
captures exactly that run. -/
theorem extract_marker_digits (cid rest : Str) (h1 : cid ≠ [])
    (h2 : cid.all isDigitCh = true) (h3 : rest.takeWhile isDigitCh = []) :
    extractAux (shipsyMarker ++ ' ' :: (cid ++ rest)) = some cid := by
  obtain ⟨c, cs, rfl⟩ : ∃ c cs, cid = c :: cs := by
    cases cid with
    | nil => exact absurd rfl h1
    | cons c cs => exact ⟨c, cs, rfl⟩
  have hdig : isDigitCh c = true := by
    simp only [List.all_cons, Bool.and_eq_true] at h2
    exact h2.1
  have hmark : shipsyMarker ++ ' ' :: ((c :: cs) ++ rest) =
      'S' :: ("HIPSY_ID:".data ++ ' ' :: ((c :: cs) ++ rest)) := rfl
  rw [hmark, extractAux_cons, ← hmark, tryMatch_marker]
  have hdw : ((' ' :: ((c :: cs) ++ rest)).dropWhile isSpaceCh) =
      (c :: cs) ++ rest := by
    rw [List.dropWhile_cons]
    simp only [show isSpaceCh ' ' = true from rfl, if_true, List.cons_append,
      List.dropWhile_cons, digit_not_space c hdig]
    simp
  rw [hdw, takeWhile_append_all isDigitCh (c :: cs) rest h2, h3]
  simp

/-- Shape of every successful regex search: the note splits as leading
text, the marker, a whitespace run, the nonempty captured digit run
(maximal: the residue starts with a non-digit), and the residue; and the
match is the earliest one — the pattern attempt fails at every position
strictly inside the leading text. -/
theorem extractAux_some_spec : ∀ l s : Str, extractAux l = some s →
    s ≠ [] ∧ s.all isDigitCh = true ∧
    ∃ a ws rest, l = a ++ (shipsyMarker ++ (ws ++ (s ++ rest))) ∧
      ws.all isSpaceCh = true ∧ rest.takeWhile isDigitCh = [] ∧
      ∀ a1 a2 : Str, a = a1 ++ a2 → a2 ≠ [] →
        tryMatch (a2 ++ (shipsyMarker ++ (ws ++ (s ++ rest)))) = none := by
  intro l
  induction l with
  | nil => intro s h; exact absurd h (by simp [extractAux])
  | cons c cs ih =>
    intro s h
    rw [extractAux_cons] at h
    cases htm : tryMatch (c :: cs) with
    | some ds =>
      rw [htm] at h
      have hds : ds = s := by simpa using h
      subst hds
      simp only [tryMatch] at htm
      by_cases hsw : strStartsWith shipsyMarker (c :: cs) = true
      · rw [if_pos hsw] at htm
        obtain ⟨r, hr⟩ := startsWith_decomp shipsyMarker (c :: cs) hsw
        rw [hr, drop_length_append] at htm
        by_cases hemp : ((r.dropWhile isSpaceCh).takeWhile isDigitCh).isEmpty = true
        · rw [if_pos hemp] at htm; exact absurd htm (by simp)
        · rw [if_neg hemp] at htm
          have hdseq : (r.dropWhile isSpaceCh).takeWhile isDigitCh = ds := by
            simpa using htm
          refine ⟨?_, ?_, [], r.takeWhile isSpaceCh,
            (r.dropWhile isSpaceCh).dropWhile isDigitCh, ?_, ?_, ?_, ?_⟩
          · intro hnil
            rw [hdseq, hnil] at hemp
            exact hemp rfl
          · rw [← hdseq]; exact all_takeWhile isDigitCh _
          · rw [List.nil_append, hr, ← hdseq]
            rw [tw_dw isDigitCh (r.dropWhile isSpaceCh), tw_dw isSpaceCh r]
          · exact all_takeWhile isSpaceCh r
          · exact takeWhile_dropWhile_nil isDigitCh _
          · intro a1 a2 hsplit hne
            exact absurd (List.append_eq_nil.mp hsplit.symm).2 hne
      · rw [if_neg hsw] at htm; exact absurd htm (by simp)
    | none =>
      rw [htm] at h
      obtain ⟨hne, hdig, a, ws, rest, hdecomp, hws, hrest, hfirst⟩ := ih s h
      refine ⟨hne, hdig, c :: a, ws, rest, by simp [hdecomp], hws, hrest, ?_⟩
      intro a1 a2 hsplit hne2
      cases a1 with
      | nil =>
        have ha2 : a2 = c :: a := by simpa using hsplit.symm
        subst ha2
        rw [List.cons_append, ← hdecomp]
        exact htm
      | cons b a1' =>
        simp only [List.cons_append, List.cons.injEq] at hsplit
        exact hfirst a1' a2 hsplit.2 hne2

/-! Counting lemmas for the batch loops. -/

/-- `countP` only depends on the predicate's values on the list. -/
theorem countP_congr_mem {α : Type} (p q : α → Bool) :
    ∀ l : List α, (∀ a ∈ l, p a = q a) → l.countP p = l.countP q := by
  intro l
  induction l with
  | nil => intro _; rfl
  | cons a l ih =>
    intro h
    rw [List.countP_cons, List.countP_cons, h a (by simp),
      ih (fun b hb => h b (by simp [hb]))]

/-- Two pointwise exclusive and jointly exhaustive predicates split the
length of a list between their counts. -/
theorem countP_partition {α : Type} (p q : α → Bool) :
    ∀ l : List α, (∀ a ∈ l, p a = true ∨ q a = true) →
      (∀ a ∈ l, ¬(p a = true ∧ q a = true)) →
      l.countP p + l.countP q = l.length := by
  intro l
  induction l with
  | nil => intro _ _; rfl
  | cons a l ih =>
    intro h1 h2
    rw [List.countP_cons, List.countP_cons]
    have hrec := ih (fun b hb => h1 b (by simp [hb]))
      (fun b hb => h2 b (by simp [hb]))
    have ha1 := h1 a (by simp)
    have ha2 := h2 a (by simp)
    rcases ha1 with hp | hq
    · have hqf : q a = false := by
        cases hqv : q a with
        | false => rfl
        | true => exact absurd ⟨hp, hqv⟩ ha2
      simp [hp, hqf]
      omega
    · have hpf : p a = false := by
        cases hpv : p a with
        | false => rfl
        | true => exact absurd ⟨hpv, hq⟩ ha2
      simp [hq, hpf]
      omega

/-- The accumulator form of the `syncPendingOrders` loop: starting from
`(s, f)`, the loop adds the number of non-skipped successful orders and
the number of non-skipped thrown orders. -/
theorem syncPendingGo_spec (carrier : Order → CarrierResult) (now : Str) :
    ∀ (orders : List Order) (s f : Nat),
      syncPendingGo carrier now orders s f =
        (s + orders.countP (fun o => !skipOrder o && syncSucceededB carrier now o),
         f + orders.countP (fun o => !skipOrder o && syncThrewB carrier now o)) := by
  intro orders
  induction orders with
  | nil => intro s f; simp [syncPendingGo]
  | cons o rest ih =>
    intro s f
    by_cases hsk : skipOrder o = true
    · rw [show syncPendingGo carrier now (o :: rest) s f =
        syncPendingGo carrier now rest s f by simp [syncPendingGo, hsk]]
      rw [ih, List.countP_cons, List.countP_cons]
      simp [hsk]
    · simp only [Bool.not_eq_true] at hsk
      cases hov : (syncOrder carrier now o).1 with
      | error e =>
        have hthrew : syncThrewB carrier now o = true := by
          simp [syncThrewB, hov]
        have hsucc : syncSucceededB carrier now o = false := by
          simp [syncSucceededB, hov]
        rw [show syncPendingGo carrier now (o :: rest) s f =
          syncPendingGo carrier now rest s (f + 1) by
            simp [syncPendingGo, hsk, hov]]
        rw [ih, List.countP_cons, List.countP_cons]
        simp only [hsk, hthrew, hsucc, Bool.not_false, Bool.true_and,
          Bool.and_false, Bool.and_true, if_true, if_false]
        refine Prod.ext ?_ ?_ <;> (simp; try omega)
      | ok r =>
        have hthrew : syncThrewB carrier now o = false := by
          simp [syncThrewB, hov]
        rw [show syncPendingGo carrier now (o :: rest) s f =
          syncPendingGo carrier now rest
            (if isSuccessResult r then s + 1 else s) f by
            simp [syncPendingGo, hsk, hov]]
        rw [ih, List.countP_cons, List.countP_cons]
        cases r with
        | alreadySynced =>
          have hsucc : syncSucceededB carrier now o = false := by
            simp [syncSucceededB, hov]
          simp [hsk, hthrew, hsucc, isSuccessResult]
        | synced cid =>
          have hsucc : syncSucceededB carrier now o = true := by
            simp [syncSucceededB, hov]
          simp only [hsk, hthrew, hsucc, Bool.not_false, Bool.true_and,
            if_true, if_false, isSuccessResult]
          refine Prod.ext ?_ ?_ <;> (simp; try omega)

/-- A `syncOrder` call cannot simultaneously throw and succeed. -/
theorem sync_outcomes_exclusive (carrier : Order → CarrierResult) (now : Str)
    (o : Order) :
    ¬(syncThrewB carrier now o = true ∧ syncSucceededB carrier now o = true) := by
  simp only [syncThrewB, syncSucceededB]
  cases h : (syncOrder carrier now o).1 with
  | error e => simp
  | ok r => cases r <;> simp

/-- The updated tally of one reconciliation iteration is exactly the
truthy-status condition; the mapping table plays no part in it. -/
theorem stepOrder_updated_count (oracle : Str → StatusFetch) (o : Order) :
    (stepOrder oracle o).1 = if statusFetchTruthy oracle o then 1 else 0 := by
  cases hx : extractConsignmentId o.note with
  | none => simp [stepOrder, statusFetchTruthy, hx]
  | some cid =>
    cases ho : oracle cid with
    | threw => simp [stepOrder, statusFetchTruthy, hx, ho]
    | got st =>
      cases st with
      | none => simp [stepOrder, statusFetchTruthy, hx, ho]
      | some st' =>
        cases hcs : st'.current_status with
        | none => simp [stepOrder, statusFetchTruthy, hx, ho, hcs]
        | some s =>
          by_cases he : s.isEmpty = true
          · simp [stepOrder, statusFetchTruthy, hx, ho, hcs, he]
          · simp only [Bool.not_eq_true] at he
            simp [stepOrder, statusFetchTruthy, hx, ho, hcs, he]

/-- The failed tally of one reconciliation iteration is exactly the
thrown-fetch condition. -/
theorem stepOrder_failed_count (oracle : Str → StatusFetch) (o : Order) :
    (stepOrder oracle o).2.1 = if statusFetchThrew oracle o then 1 else 0 := by
  cases hx : extractConsignmentId o.note with
  | none => simp [stepOrder, statusFetchThrew, hx]
  | some cid =>
    cases ho : oracle cid with
    | threw => simp [stepOrder, statusFetchThrew, hx, ho]
    | got st =>
      cases st with
      | none => simp [stepOrder, statusFetchThrew, hx, ho]
      | some st' =>
        cases hcs : st'.current_status with
        | none => simp [stepOrder, statusFetchThrew, hx, ho, hcs]
        | some s =>
          by_cases he : s.isEmpty = true
          · simp [stepOrder, statusFetchThrew, hx, ho, hcs, he]
          · simp only [Bool.not_eq_true] at he
            simp [stepOrder, statusFetchThrew, hx, ho, hcs, he]

/-- The reconciliation loop's updated tally counts every order with a
note token and a truthy fetched status, mapped or not. -/
theorem updateStatuses_updated (oracle : Str → StatusFetch) :
    ∀ orders : List Order,
      (updateConsignmentStatuses oracle orders).1 =
        orders.countP (statusFetchTruthy oracle) := by
  intro orders
  induction orders with
  | nil => rfl
  | cons o rest ih =>
    simp only [updateConsignmentStatuses]
    rw [stepOrder_updated_count, ih, List.countP_cons]
    by_cases h : statusFetchTruthy oracle o = true
    · simp [h]; omega
    · simp only [Bool.not_eq_true] at h
      simp [h]

/-- The reconciliation loop's failed tally counts exactly the orders
whose status fetch threw. -/
theorem updateStatuses_failed (oracle : Str → StatusFetch) :
    ∀ orders : List Order,
      (updateConsignmentStatuses oracle orders).2.1 =
        orders.countP (statusFetchThrew oracle) := by
  intro orders
  induction orders with
  | nil => rfl
  | cons o rest ih =>
    simp only [updateConsignmentStatuses]
    rw [stepOrder_failed_count, ih, List.countP_cons]
    by_cases h : statusFetchThrew oracle o = true
    · simp [h]; omega
    · simp only [Bool.not_eq_true] at h
      simp [h]

/-! The claims. -/

/-- C1, counterexample: the status value `pending` belongs to the spec's
fixed enumeration, yet the mapping table of `src/config/settings.js` has
no entry for it, so reconciliation given `pending` takes the
unknown-status branch (warning logged, update skipped, no write). -/
theorem c1_pending_unmapped_counterexample :
    "pending".data ∈ specStatusEnumeration ∧
    lookupShipmentStatus "pending".data = none ∧
    updateOrderFromShipmentStatus "1001".data ⟨some "pending".data⟩ =
      (true, []) := by
  refine ⟨by decide, by decide, rfl⟩

/-- C1, amended: the mapping table has an entry exactly for the seven keys
`pickup_scheduled, out_for_pickup, reached_at_hub, outfordelivery,
attempted, delivered, cancelled`; each enumerated value other than
`pending` and `in_transit` is mapped, while `pending` and `in_transit`
have no entry and reconciliation given either takes the unknown-status
branch and skips the update. -/
theorem c1_status_mapping_amended :
    (∀ s ∈ specStatusEnumeration, s ≠ "pending".data →
      s ≠ "in_transit".data → (lookupShipmentStatus s).isSome = true) ∧
    lookupShipmentStatus "pending".data = none ∧
    lookupShipmentStatus "in_transit".data = none ∧
    (∀ oid : Str,
      updateOrderFromShipmentStatus oid ⟨some "pending".data⟩ = (true, [])) ∧
    (∀ oid : Str,
      updateOrderFromShipmentStatus oid ⟨some "in_transit".data⟩ = (true, [])) :=
  ⟨by decide, by decide, by decide, fun _ => rfl, fun _ => rfl⟩

/-- C1, witness for the amended theorem at the enumerated value
`delivered`. -/
theorem c1_status_mapping_amended_witness :
    (lookupShipmentStatus "delivered".data).isSome = true :=
  c1_status_mapping_amended.1 "delivered".data (by decide) (by decide)
    (by decide)

/-- C2, evaluation at the failing input: on the note `SHIPSY_ID: x` the
idempotency guard of `syncOrder` (substring inclusion of the marker)
fires and returns already_synced with no carrier call, even though
`extractConsignmentId` — per the spec the single source of truth for "is
this order synced" — returns null on that very note. -/
theorem c2_guard_divergence_eval :
    syncOrder (fun _ => CarrierResult.throws) "T".data
      ⟨"1".data, some "SHIPSY_ID: x".data, none, none⟩ =
      (Except.ok SyncResult.alreadySynced, []) ∧
    extractConsignmentId (some "SHIPSY_ID: x".data) = none ∧
    noteHasMarker (some "SHIPSY_ID: x".data) = true :=
  ⟨rfl, rfl, rfl⟩

/-- C3, counterexample: an order whose note holds the human-authored text
`gift wrap please` and no sync token; a successful `syncOrder` writes
back a note that is exactly the fresh metadata string, which does not
contain the pre-existing text at all — the original note content is
destroyed, not preserved with the metadata appended after it. -/
theorem c3_note_overwrite_counterexample :
    syncOrder (fun _ => CarrierResult.created "42".data) "T".data
      ⟨"1001".data, some "gift wrap please".data, none, none⟩ =
      (Except.ok (SyncResult.synced "42".data),
        [Effect.createConsignment "1001".data,
         Effect.updateOrderNote "1001".data "SHIPSY_ID: 42\nCreated: T".data,
         Effect.addOrderTag "1001".data "shipsy-synced".data]) ∧
    strContains "gift wrap please".data "SHIPSY_ID: 42\nCreated: T".data =
      false :=
  ⟨rfl, by decide⟩

/-- C3, amended: for every order that passes the idempotency guard and for
which consignment creation succeeds, `syncOrder` writes back a note equal
to `encodeNote cid now` — the token line and timestamp only, independent
of the order's pre-existing note text, which is therefore not preserved. -/
theorem c3_note_overwrite_amended (carrier : Order → CarrierResult)
    (now : Str) (o : Order) (cid : Str)
    (hguard : noteHasMarker o.note = false)
    (hc : carrier o = CarrierResult.created cid) :
    syncOrder carrier now o =
      (Except.ok (SyncResult.synced cid),
        [Effect.createConsignment o.id,
         Effect.updateOrderNote o.id (encodeNote cid now),
         Effect.addOrderTag o.id shipsySyncedTag]) := by
  simp [syncOrder, hguard, hc]

/-- C3, witness for the amended theorem. -/
theorem c3_note_overwrite_amended_witness :
    syncOrder (fun _ => CarrierResult.created "42".data) "T".data
      ⟨"1001".data, some "customer note".data, none, none⟩ =
      (Except.ok (SyncResult.synced "42".data),
        [Effect.createConsignment "1001".data,
         Effect.updateOrderNote "1001".data (encodeNote "42".data "T".data),
         Effect.addOrderTag "1001".data shipsySyncedTag]) :=
  c3_note_overwrite_amended _ _ _ _ (by decide) rfl

/-- C4, counterexample: a concrete successful `syncOrder` attempt appends
zero entries to the sync log, not exactly one — `SyncLog.logSync` is
never invoked on the sync path. -/
theorem c4_no_log_entry_counterexample :
    countLogAppends ((syncOrder (fun _ => CarrierResult.created "42".data)
      "T".data ⟨"1001".data, none, none, none⟩).2) = 0 ∧
    ¬ countLogAppends ((syncOrder (fun _ => CarrierResult.created "42".data)
      "T".data ⟨"1001".data, none, none, none⟩).2) = 1 :=
  ⟨rfl, by decide⟩

/-- C4, amended: no `syncOrder` attempt — successful, short-circuited or
thrown — appends any entry to the sync log; the sync-log model's
`logSync` exists but has no caller in the sync path, so every attempt
leaves the sync log unchanged. -/
theorem c4_no_log_appends_amended (carrier : Order → CarrierResult)
    (now : Str) (o : Order) :
    countLogAppends (syncOrder carrier now o).2 = 0 := by
  by_cases h : noteHasMarker o.note = true
  · simp [syncOrder, h, countLogAppends]
  · simp only [Bool.not_eq_true] at h
    cases hc : carrier o with
    | throws => simp [syncOrder, h, hc, countLogAppends, isSyncLogAppend]
    | created cid =>
      simp [syncOrder, h, hc, countLogAppends, isSyncLogAppend]

/-- C5 (confirmed): for every order whose note contains the `SHIPSY_ID:`
token marker, `syncOrder` returns `{success:false,
reason:"already_synced"}` and its effect trace is empty — zero carrier
calls and zero writes to the order source. -/
theorem c5_idempotency (carrier : Order → CarrierResult) (now : Str)
    (o : Order) (s : Str) (h1 : o.note = some s)
    (h2 : strContains shipsyMarker s = true) :
    syncOrder carrier now o = (Except.ok SyncResult.alreadySynced, []) := by
  have hm : noteHasMarker o.note = true := by
    rw [h1]
    exact h2
  simp [syncOrder, hm]

/-- C5, witness. -/
theorem c5_idempotency_witness :
    syncOrder (fun _ => CarrierResult.throws) "T".data
      ⟨"1001".data, some "SHIPSY_ID: 42".data, none, none⟩ =
      (Except.ok SyncResult.alreadySynced, []) :=
  c5_idempotency _ _ _ "SHIPSY_ID: 42".data rfl (by decide)

/-- C6 (confirmed): round-trip of the note token.  (a) For every nonempty
all-digit consignment id and any timestamp, encoding the sync-state note
and extracting yields the id back; (b) a null note yields null; (c) a
note with no marker occurrence (including the empty note) yields null;
(d) a note made of arbitrary marker-free text followed by a valid
`SHIPSY_ID: <digits>` line still yields the id. -/
theorem c6_note_token_roundtrip :
    (∀ cid now : Str, cid ≠ [] → cid.all isDigitCh = true →
      extractConsignmentId (some (encodeNote cid now)) = some cid) ∧
    extractConsignmentId none = none ∧
    (∀ s : Str, strContains shipsyMarker s = false →
      extractConsignmentId (some s) = none) ∧
    (∀ t cid : Str, strContains shipsyMarker (t ++ ['\n']) = false →
      cid ≠ [] → cid.all isDigitCh = true →
      extractConsignmentId (some (t ++ '\n' :: ("SHIPSY_ID: ".data ++ cid))) =
        some cid) := by
  refine ⟨?_, rfl, ?_, ?_⟩
  · intro cid now h1 h2
    have henc : encodeNote cid now =
        shipsyMarker ++ ' ' :: (cid ++ ('\n' :: ("Created: ".data ++ now))) := by
      simp [encodeNote, shipsyMarker]
    show extractAux (encodeNote cid now) = some cid
    rw [henc]
    exact extract_marker_digits cid _ h1 h2
      (by rw [List.takeWhile_cons]; simp [isDigitCh])
  · intro s h
    exact extractAux_none_of_not_contains s h
  · intro t cid ht h1 h2
    show extractAux (t ++ '\n' :: ("SHIPSY_ID: ".data ++ cid)) = some cid
    rw [extractAux_skip t _ ht, extractAux_cons,
      tryMatch_none_of_no_marker
        (l := '\n' :: ("SHIPSY_ID: ".data ++ cid)) rfl]
    have hline : "SHIPSY_ID: ".data ++ cid = shipsyMarker ++ ' ' :: (cid ++ []) := by
      simp [shipsyMarker]
    rw [hline]
    exact extract_marker_digits cid [] h1 h2 rfl

/-- C6, witness: the round-trip at the concrete id `123`. -/
theorem c6_note_token_roundtrip_witness :
    extractConsignmentId
      (some (encodeNote "123".data "2026-01-01T00:00:00Z".data)) =
      some "123".data :=
  c6_note_token_roundtrip.1 "123".data "2026-01-01T00:00:00Z".data
    (by decide) (by decide)

/-- C7 (confirmed): batch isolation of `syncPendingOrders`.  For every
fetched list in which no order is skipped as refunded/cancelled and every
order's `syncOrder` either throws or succeeds, the loop never aborts: it
returns synced = the number of successful syncs, failed = the number of
thrown per-order errors, total = the length of the list, and the two
counts partition the list. -/
theorem c7_batch_isolation (carrier : Order → CarrierResult) (now : Str)
    (orders : List Order) (hskip : ∀ o ∈ orders, skipOrder o = false)
    (hout : ∀ o ∈ orders, syncThrewB carrier now o = true ∨
      syncSucceededB carrier now o = true) :
    syncPendingOrders carrier now orders =
      (orders.countP (syncSucceededB carrier now),
        orders.countP (syncThrewB carrier now), orders.length) ∧
    orders.countP (syncSucceededB carrier now) +
      orders.countP (syncThrewB carrier now) = orders.length := by
  have hpart : orders.countP (syncSucceededB carrier now) +
      orders.countP (syncThrewB carrier now) = orders.length := by
    refine countP_partition _ _ orders ?_ ?_
    · intro o ho
      rcases hout o ho with h | h
      · exact Or.inr h
      · exact Or.inl h
    · intro o _ h
      exact sync_outcomes_exclusive carrier now o ⟨h.2, h.1⟩
  refine ⟨?_, hpart⟩
  have hs : orders.countP (fun o => !skipOrder o && syncSucceededB carrier now o) =
      orders.countP (syncSucceededB carrier now) :=
    countP_congr_mem _ _ orders (fun o ho => by simp [hskip o ho])
  have hf : orders.countP (fun o => !skipOrder o && syncThrewB carrier now o) =
      orders.countP (syncThrewB carrier now) :=
    countP_congr_mem _ _ orders (fun o ho => by simp [hskip o ho])
  simp only [syncPendingOrders, syncPendingGo_spec, hs, hf, Nat.zero_add]

/-- C7, witness: a three-order batch where the carrier throws for the
first order and succeeds for the other two. -/
theorem c7_batch_isolation_witness :
    syncPendingOrders
      (fun o => if o.id == "1".data then CarrierResult.throws
        else CarrierResult.created "9".data) "T".data
      [⟨"1".data, none, none, none⟩, ⟨"2".data, none, none, none⟩,
       ⟨"3".data, none, none, none⟩] = (2, 1, 3) :=
  ((c7_batch_isolation
      (fun o => if o.id == "1".data then CarrierResult.throws
        else CarrierResult.created "9".data) "T".data
      [⟨"1".data, none, none, none⟩, ⟨"2".data, none, none, none⟩,
       ⟨"3".data, none, none, none⟩] (by decide) (by decide)).1).trans
    (by decide)

/-- C8 (confirmed): `createConsignment` returns success only when the
nominally successful carrier response carries a truthy consignment
identifier, and raises an error whenever the response lacks one — a
malformed 2xx response is a hard failure, never a success without an
id. -/
theorem c8_malformed_response (resp : ShipsyResponse) :
    (∀ cid : Str, createConsignment resp = Except.ok cid →
      ∃ d : ShipsyData, resp.data = some d ∧
        d.consignment_id = some cid ∧ cid.isEmpty = false) ∧
    (respLacksId resp = true → createConsignment resp = Except.error ()) := by
  constructor
  · intro cid h
    cases hd : resp.data with
    | none => simp [createConsignment, hd] at h
    | some d =>
      cases hc : d.consignment_id with
      | none => simp [createConsignment, hd, hc] at h
      | some cid' =>
        by_cases he : cid'.isEmpty = true
        · simp [createConsignment, hd, hc, he] at h
        · simp only [createConsignment, hd, hc] at h
          rw [if_neg he] at h
          obtain rfl : cid' = cid := by simpa using h
          exact ⟨d, rfl, hc, by simpa using he⟩
  · intro h
    cases hd : resp.data with
    | none => simp [createConsignment, hd]
    | some d =>
      cases hc : d.consignment_id with
      | none => simp [createConsignment, hd, hc]
      | some cid' =>
        have he : cid'.isEmpty = true := by
          simpa [respLacksId, hd, hc] using h
        simp [createConsignment, hd, hc, he]

/-- C8, witness: a 2xx response whose body carries no consignment id is
rejected with an error. -/
theorem c8_malformed_response_witness :
    createConsignment ⟨some ⟨none⟩⟩ = Except.error () :=
  (c8_malformed_response ⟨some ⟨none⟩⟩).2 rfl

/-- C9 (confirmed): an order processed by `updateConsignmentStatuses`
whose fetched status is truthy but unmapped produces no write to the
order source (its iteration's only effect is the status query), is not
counted as failed, and IS counted — the loop's updated tally counts every
truthy-status order regardless of the mapping table, and its failed tally
counts only thrown fetches. -/
theorem c9_unmapped_still_counted (oracle : Str → StatusFetch)
    (orders : List Order) (o : Order) (cid s : Str) (st : ShipmentStatus)
    (h1 : extractConsignmentId o.note = some cid)
    (h2 : oracle cid = StatusFetch.got (some st))
    (h3 : st.current_status = some s) (h4 : s.isEmpty = false)
    (h5 : lookupShipmentStatus s = none) :
    statusFetchTruthy oracle o = true ∧
    stepOrder oracle o = (1, 0, [Effect.getConsignmentStatus cid]) ∧
    (updateConsignmentStatuses oracle orders).1 =
      orders.countP (statusFetchTruthy oracle) ∧
    (updateConsignmentStatuses oracle orders).2.1 =
      orders.countP (statusFetchThrew oracle) := by
  refine ⟨?_, ?_, updateStatuses_updated oracle orders,
    updateStatuses_failed oracle orders⟩
  · simp [statusFetchTruthy, h1, h2, h3, h4]
  · have hupd : updateOrderFromShipmentStatus o.id st = (true, []) := by
      simp [updateOrderFromShipmentStatus, h3, h5]
    simp [stepOrder, h1, h2, h3, h4, hupd]

/-- C9, witness: an order synced with id 5 whose carrier reports the
unmapped truthy status `pending` is counted as updated, not failed, and
causes only the status query. -/
theorem c9_unmapped_still_counted_witness :
    stepOrder (fun _ => StatusFetch.got (some ⟨some "pending".data⟩))
      ⟨"1001".data, some "SHIPSY_ID: 5".data, none, none⟩ =
      (1, 0, [Effect.getConsignmentStatus "5".data]) :=
  (c9_unmapped_still_counted
    (fun _ => StatusFetch.got (some ⟨some "pending".data⟩)) []
    ⟨"1001".data, some "SHIPSY_ID: 5".data, none, none⟩ "5".data
    "pending".data ⟨some "pending".data⟩ (by decide) rfl rfl (by decide)
    (by decide)).2.1

/-- C10, counterexample: on the note `SHIPSY_ID: x SHIPSY_ID: 7` the
first occurrence of the marker is followed by no digits, so the
claim's description (digits after the FIRST occurrence, never empty)
demands null — but `extractConsignmentId` returns `7`, captured at the
second occurrence, because the regex engine searches on past a digitless
occurrence. -/
theorem c10_first_occurrence_counterexample :
    extractConsignmentId (some "SHIPSY_ID: x SHIPSY_ID: 7".data) =
      some "7".data ∧
    firstOccDigits "SHIPSY_ID: x SHIPSY_ID: 7".data = none :=
  ⟨rfl, rfl⟩

/-- C10, amended: `extractConsignmentId` is total (never throws), returns
null on null and empty notes, and otherwise returns either null or a
nonempty all-digit string — namely the maximal digit run following
(after optional whitespace) the EARLIEST marker occurrence at which the
whole pattern, digits included, matches; the pattern attempt fails at
every position before that match. -/
theorem c10_extract_shape_amended :
    extractConsignmentId none = none ∧
    extractConsignmentId (some []) = none ∧
    ∀ note s : Str, extractConsignmentId (some note) = some s →
      s ≠ [] ∧ s.all isDigitCh = true ∧
      ∃ a ws rest, note = a ++ (shipsyMarker ++ (ws ++ (s ++ rest))) ∧
        ws.all isSpaceCh = true ∧ rest.takeWhile isDigitCh = [] ∧
        ∀ a1 a2 : Str, a = a1 ++ a2 → a2 ≠ [] →
          tryMatch (a2 ++ (shipsyMarker ++ (ws ++ (s ++ rest)))) = none :=
  ⟨rfl, rfl, fun note s h => extractAux_some_spec note s h⟩

/-- C10, witness for the amended theorem at a concrete note. -/
theorem c10_extract_shape_amended_witness :
    "7".data ≠ ([] : Str) ∧ "7".data.all isDigitCh = true :=
  ⟨(c10_extract_shape_amended.2.2 "SHIPSY_ID: 7".data "7".data rfl).1,
    (c10_extract_shape_amended.2.2 "SHIPSY_ID: 7".data "7".data rfl).2.1⟩

end Ypl
